import Mathlib

/-!
# Verification of the findshlibs Windows backend (`src/windows/mod.rs`)

A shallow embedding of the Windows `SharedLibrary` backend.  Process memory
is modelled as a total function from (integer) addresses to bytes; every
header accessor of the Rust code is translated into a Lean function reading
that memory at the offsets fixed by the winapi structure layouts
(64-bit target, little-endian), exactly as the pointer casts in the source
read them.  The module enumerator `each` is modelled as a fold over the
candidate list reported by the OS, with the per-module OS call results
(path query, `GetModuleInformation` return value, `VirtualQuery` outcome,
commit state) given as an environment record.
-/

/-- Process memory: a byte at every (possibly negative) address.  The Rust
code reads fields through raw pointer casts, so nothing constrains what the
bytes are. -/
def Mem : Type := Int → Nat

/-- One byte read, reduced mod 256 so arbitrary `Mem` values behave as bytes. -/
def readU8 (m : Mem) (a : Int) : Nat := m a % 256

/-- Little-endian 16-bit read (e.g. `e_magic`, `NumberOfSections`). -/
def readU16 (m : Mem) (a : Int) : Nat := readU8 m a + 256 * readU8 m (a + 1)

/-- Little-endian 32-bit read (e.g. `Signature`, `TimeDateStamp`). -/
def readU32 (m : Mem) (a : Int) : Nat := readU16 m a + 65536 * readU16 m (a + 2)

/-- Reinterpret a 32-bit unsigned value as the signed `i32` it encodes
(two's complement), as the cast `e_lfanew as isize` does. -/
def asI32 (n : Nat) : Int := if n < 2 ^ 31 then (n : Int) else (n : Int) - 2 ^ 32

/-- `n` consecutive bytes starting at `a` (used for the 16-byte GUID). -/
def readBytes (m : Mem) (a : Int) (n : Nat) : List Nat :=
  (List.range n).map fun i => readU8 m (a + (i : Int))

/-- Sparse concrete memory for test inputs: listed (address, byte) pairs,
every other address holds 0. -/
def memOf (ps : List (Int × Nat)) : Mem := fun a => ((ps.lookup a).getD 0)

/-! ## Constants from winapi (`um::winnt`) used by the source -/

/-- `IMAGE_DOS_SIGNATURE` (the ASCII bytes "MZ"). -/
def IMAGE_DOS_SIGNATURE : Nat := 0x5A4D

/-- `IMAGE_NT_SIGNATURE` (the ASCII bytes "PE\0\0"). -/
def IMAGE_NT_SIGNATURE : Nat := 0x4550

/-- `IMAGE_DEBUG_TYPE_CODEVIEW`. -/
def IMAGE_DEBUG_TYPE_CODEVIEW : Nat := 2

/-- `CV_SIGNATURE = 0x5344_5352` from the source ("RSDS"). -/
def CV_SIGNATURE : Nat := 0x53445352

/-!
## Structure offsets (64-bit winapi layout, little-endian)

* `IMAGE_DOS_HEADER`: `e_magic : u16` at offset 0, `e_lfanew : i32` at 60.
* `IMAGE_NT_HEADERS64`: `Signature : u32` at 0; `FileHeader` at 4 with
  `NumberOfSections : u16` at +2 and `TimeDateStamp : u32` at +4;
  `OptionalHeader` at 24 with `SizeOfImage : u32` at +56 and the
  `DataDirectory` (8-byte `{VirtualAddress, Size}` entries) at +112, so the
  entry at `IMAGE_DIRECTORY_ENTRY_DEBUG = 6` sits at NT offset
  24 + 112 + 6*8 = 184.  `size_of::<IMAGE_NT_HEADERS>() = 264`.
* `IMAGE_SECTION_HEADER` (40 bytes): `Name : [u8; 8]` at 0,
  `VirtualAddress : u32` at 12, `SizeOfRawData : u32` at 16.
* `IMAGE_DEBUG_DIRECTORY` (28 bytes): `Type : u32` at 12,
  `AddressOfRawData : u32` at 20.
* `CodeViewRecord70`: `signature : u32` at 0, `pdb_signature : GUID`
  (16 bytes) at 4, `pdb_age : u32` at 20, `pdb_filename` from 24.
-/

/-- NT-header address named by the DOS header: `module_base + e_lfanew`. -/
def ntAddr (m : Mem) (base : Int) : Int := base + asI32 (readU32 m (base + 60))

namespace SharedLibrary

/-- `SharedLibrary::dos_header`: the DOS header at the module base, accepted
only if `e_magic == IMAGE_DOS_SIGNATURE`; the returned reference is modelled
by its address. -/
def dos_header (m : Mem) (base : Int) : Option Int :=
  if readU16 m base = IMAGE_DOS_SIGNATURE then some base else none

/-- `SharedLibrary::nt_headers`: follow `e_lfanew` from a valid DOS header
and accept only if `Signature == IMAGE_NT_SIGNATURE`. -/
def nt_headers (m : Mem) (base : Int) : Option Int :=
  (dos_header m base).bind fun _ =>
    let nt := ntAddr m base
    if readU32 m nt = IMAGE_NT_SIGNATURE then some nt else none

/-- `SharedLibrary::virtual_memory_bias`: 0 when `nt_headers` fails,
otherwise `DataDirectory[IMAGE_DIRECTORY_ENTRY_DEBUG].VirtualAddress`
cast to `isize`. -/
def virtual_memory_bias (m : Mem) (base : Int) : Int :=
  match nt_headers m base with
  | none => 0
  | some nt => (readU32 m (nt + 184) : Int)

/-- `SharedLibrary::codeview_record70`: offsets `module_base` by the bias,
reads an `IMAGE_DEBUG_DIRECTORY` there (null-pointer check, then the `Type`
tag), then follows `AddressOfRawData` to a `CodeViewRecord70` (null-pointer
check, then the `signature` magic).  Returns the record's address.  Note the
source does not require `nt_headers` to succeed: on failure the bias is 0
and the DOS-header bytes themselves are read as a debug directory. -/
def codeview_record70 (m : Mem) (base : Int) : Option Int :=
  let bias := virtual_memory_bias m base
  let debug_dictionary := base + bias
  if debug_dictionary = 0 ∨ readU32 m (debug_dictionary + 12) ≠ IMAGE_DEBUG_TYPE_CODEVIEW then
    none
  else
    let debug_info := base + (readU32 m (debug_dictionary + 20) : Int)
    if debug_info = 0 ∨ readU32 m debug_info ≠ CV_SIGNATURE then
      none
    else
      some debug_info

/-- `SharedLibrary::id`: `PeSignature(TimeDateStamp, SizeOfImage)` from a
validated NT header. -/
def id (m : Mem) (base : Int) : Option (Nat × Nat) :=
  (nt_headers m base).map fun nt => (readU32 m (nt + 8), readU32 m (nt + 80))

/-- `SharedLibrary::debug_id`: `PdbSignature(guid-as-16-bytes, pdb_age)`
from the CodeView record. -/
def debug_id (m : Mem) (base : Int) : Option (List Nat × Nat) :=
  (codeview_record70 m base).map fun di => (readBytes m (di + 4) 16, readU32 m (di + 20))

/-- `SharedLibrary::segments`: the addresses of the
`FileHeader.NumberOfSections` section headers laid out right after the
NT headers (`size_of::<IMAGE_NT_HEADERS>() = 264`, 40 bytes each); the
empty list when `nt_headers` fails. -/
def segments (m : Mem) (base : Int) : List Int :=
  match nt_headers m base with
  | none => []
  | some nt => (List.range (readU16 m (nt + 6))).map fun i => nt + 264 + 40 * (i : Int)

end SharedLibrary

/-! ## C-string reading and UTF-8 validation

`Segment::name` and `debug_name` call `CStr::from_ptr`, which walks memory
from the given address to the first NUL byte — with no relation to the
8-byte width of the `Name` field — and then `CStr::to_str`, which checks
the bytes are valid UTF-8 (a `str` is those same bytes once validated, so
the decoded name is modelled as the byte list itself).  `cstrBytesFuel`
models the NUL walk with an explicit bound `fuel`: `CStr::from_ptr` is
undefined unless a NUL exists, and `cstrBytesFuel_stable` shows the result
does not depend on the bound once it covers the first NUL. -/

/-- Bytes from `a` up to (excluding) the first NUL, scanning at most `fuel`
bytes. -/
def cstrBytesFuel (m : Mem) (a : Int) : Nat → List Nat
  | 0 => []
  | fuel + 1 =>
    let b := readU8 m a
    if b = 0 then [] else b :: cstrBytesFuel m (a + 1) fuel

/-- UTF-8 validator state: `none` expects a leader byte; `some (lo, hi, k)`
expects one byte in `[lo, hi]` followed by `k` more continuation bytes. -/
def Utf8State : Type := Option (Nat × Nat × Nat)

/-- One step of UTF-8 validation (RFC 3629 ranges); outer `none` = invalid. -/
def utf8Step (s : Option Utf8State) (b : Nat) : Option Utf8State :=
  match s with
  | none => none
  | some none =>
    if b ≤ 0x7F then some none
    else if 0xC2 ≤ b ∧ b ≤ 0xDF then some (some (0x80, 0xBF, 0))
    else if b = 0xE0 then some (some (0xA0, 0xBF, 1))
    else if 0xE1 ≤ b ∧ b ≤ 0xEC then some (some (0x80, 0xBF, 1))
    else if b = 0xED then some (some (0x80, 0x9F, 1))
    else if 0xEE ≤ b ∧ b ≤ 0xEF then some (some (0x80, 0xBF, 1))
    else if b = 0xF0 then some (some (0x90, 0xBF, 2))
    else if 0xF1 ≤ b ∧ b ≤ 0xF3 then some (some (0x80, 0xBF, 2))
    else if b = 0xF4 then some (some (0x80, 0x8F, 2))
    else none
  | some (some (lo, hi, k)) =>
    if lo ≤ b ∧ b ≤ hi then
      match k with
      | 0 => some none
      | k' + 1 => some (some (0x80, 0xBF, k'))
    else none

/-- `str::from_utf8` succeeds on `l` (no pending multi-byte sequence). -/
def utf8Valid (l : List Nat) : Bool :=
  match l.foldl utf8Step (some none) with
  | some none => true
  | _ => false

namespace Segment

/-- `Segment::name`: C-string at the `Name` field (which sits at offset 0
of the `IMAGE_SECTION_HEADER` at address `sec`), kept when valid UTF-8 and
replaced by the empty string otherwise.  The decoded name is the byte
list. -/
def name (m : Mem) (sec : Int) (fuel : Nat) : List Nat :=
  let bytes := cstrBytesFuel m sec fuel
  if utf8Valid bytes then bytes else []

/-- `Segment::is_code`: the decoded name equals ".text"
(bytes `[0x2E, 0x74, 0x65, 0x78, 0x74]`). -/
def is_code (m : Mem) (sec : Int) (fuel : Nat) : Bool :=
  name m sec fuel = [0x2E, 0x74, 0x65, 0x78, 0x74]

end Segment

namespace SharedLibrary

/-- `SharedLibrary::debug_name`: the C string after the CodeView record's
fixed fields (`pdb_filename`, offset 24), `Some` exactly when it is valid
UTF-8. -/
def debug_name (m : Mem) (base : Int) (fuel : Nat) : Option (List Nat) :=
  (codeview_record70 m base).bind fun di =>
    let bytes := cstrBytesFuel m (di + 24) fuel
    if utf8Valid bytes then some bytes else none

end SharedLibrary

/-- The scan bound of `cstrBytesFuel` is irrelevant once it covers the first
NUL byte: the model faithfully captures `CStr::from_ptr` whenever a NUL
exists at all. -/
theorem cstrBytesFuel_stable (m : Mem) (a : Int) (k : Nat) (hk : readU8 m (a + (k : Int)) = 0) :
    ∀ fuel fuel' : Nat, k < fuel → k < fuel' →
      cstrBytesFuel m a fuel = cstrBytesFuel m a fuel' := by
  induction k generalizing a with
  | zero =>
    intro fuel fuel' h h'
    obtain ⟨f, rfl⟩ : ∃ f, fuel = f + 1 := ⟨fuel - 1, by omega⟩
    obtain ⟨f', rfl⟩ : ∃ f', fuel' = f' + 1 := ⟨fuel' - 1, by omega⟩
    have h0 : readU8 m a = 0 := by simpa using hk
    simp [cstrBytesFuel, h0]
  | succ k ih =>
    intro fuel fuel' h h'
    obtain ⟨f, rfl⟩ : ∃ f, fuel = f + 1 := ⟨fuel - 1, by omega⟩
    obtain ⟨f', rfl⟩ : ∃ f', fuel' = f' + 1 := ⟨fuel' - 1, by omega⟩
    simp only [cstrBytesFuel]
    by_cases hb : readU8 m a = 0
    · simp [hb]
    · have hk' : readU8 m (a + 1 + (k : Int)) = 0 := by
        have e : a + 1 + (k : Int) = a + ((k + 1 : Nat) : Int) := by push_cast; ring
        rw [e]; exact hk
      simp [hb, ih (a + 1) hk' f f' (by omega) (by omega)]

/-! ## The module enumerator (`SharedLibrary::each`)

The loop body's OS interactions are modelled by an environment record per
candidate module.  `GetModuleInformation` returns a winapi `BOOL` (an
`i32`): 0 on failure, nonzero (1) on success.  The source guards it with
`if !GetModuleInformation(..) == 0 { continue; }` where `!` on an `i32` is
bitwise NOT, so the guard skips exactly when the return value is -1 —
see `bnotI32`. -/

/-- Rust's `!` on `i32`: bitwise NOT (two's complement). -/
def bnotI32 (x : Int) : Int := -x - 1

/-- The early-exit signal returned by the callback. -/
inductive IterationControl : Type
  | Continue : IterationControl
  | Break : IterationControl
deriving DecidableEq

/-- Observable actions of one loop iteration: taking the pin
(`LoadLibraryExW`), invoking the caller's callback, releasing the pin
(`FreeLibrary`). -/
inductive Event : Type
  | pin : Event
  | callback : Event
  | unpin : Event
deriving DecidableEq

/-- Environment for one candidate module: results of the OS calls the loop
body makes for it. -/
structure ModuleCand : Type where
  /-- `GetModuleFileNameExW` returned nonzero (path retrieved). -/
  pathOk : Bool
  /-- `GetModuleInformation`'s `BOOL` return value (0 = failure). -/
  infoRet : Int
  /-- `VirtualQuery` returned `size_of::<MEMORY_BASIC_INFORMATION>()`. -/
  vqOk : Bool
  /-- `vmem_info.State == MEM_COMMIT`. -/
  committed : Bool

/-- One iteration of the `each` loop for candidate `c`, where `ctl` is what
the callback would return if invoked.  Produces the events of the
iteration, whether the callback was invoked, and `should_break`.  Mirrors
the source line by line: path check, the (buggy) info check, pin, the
`VirtualQuery`/`MEM_COMMIT` guards around the callback, the unconditional
`FreeLibrary`. -/
def moduleStep (c : ModuleCand) (ctl : IterationControl) :
    List Event × Bool × Bool :=
  if ¬ c.pathOk then ([], false, false)
  else if bnotI32 c.infoRet = 0 then ([], false, false)
  else
    let invoked := c.vqOk && c.committed
    let brk := invoked && decide (ctl = IterationControl.Break)
    (Event.pin :: ((if invoked then [Event.callback] else []) ++ [Event.unpin]), invoked, brk)

/-- The `each` loop over the remaining candidates; `cb i` is the signal the
callback returns on its `i`-th invocation (0-based) and `k` counts
invocations so far.  Returns the event trace and the total invocation
count. -/
def eachGo (cb : Nat → IterationControl) : List ModuleCand → Nat → List Event × Nat
  | [], k => ([], k)
  | c :: rest, k =>
    let s := moduleStep c (cb k)
    let k' := if s.2.1 then k + 1 else k
    if s.2.2 then (s.1, k')
    else
      let r := eachGo cb rest k'
      (s.1 ++ r.1, r.2)

/-- `SharedLibrary::each` on the module list reported by
`EnumProcessModules` (the initial size/retrieval failures end the whole
enumeration before any iteration and produce the empty trace). -/
def each (cb : Nat → IterationControl) (mods : List ModuleCand) : List Event × Nat :=
  eachGo cb mods 0

/-- A candidate reaches the `LoadLibraryExW` pin exactly when its path was
retrieved and the (buggy) info guard did not fire. -/
def pinTaken (c : ModuleCand) : Prop := c.pathOk = true ∧ bnotI32 c.infoRet ≠ 0

/-- A candidate for which the callback is invoked: path retrieved, info
guard not fired, memory query succeeded and region committed. -/
def eligible (c : ModuleCand) : Prop :=
  c.pathOk = true ∧ bnotI32 c.infoRet ≠ 0 ∧ c.vqOk = true ∧ c.committed = true

instance (c : ModuleCand) : Decidable (pinTaken c) := by
  unfold pinTaken; infer_instance

instance (c : ModuleCand) : Decidable (eligible c) := by
  unfold eligible; infer_instance

/-! ## Concrete memories used as test inputs -/

/-- A module image with valid DOS and NT headers at base 0:
`e_magic = 0x5A4D`, `e_lfanew = 64`, NT signature `0x4550` at 64,
`NumberOfSections = 1`, `TimeDateStamp = 0x11223344`,
`SizeOfImage = 0xA000`, debug data-directory `VirtualAddress = 0x2000`. -/
def memGood : Mem := memOf
  [(0, 0x4D), (1, 0x5A), (60, 64),
   (64, 0x50), (65, 0x45),
   (70, 1),
   (72, 0x44), (73, 0x33), (74, 0x22), (75, 0x11),
   (144, 0x00), (145, 0xA0),
   (248, 0x00), (249, 0x20)]

/-- All-zero memory: the DOS magic check fails at any base. -/
def memBad : Mem := memOf []

/-- A module image at base 4096 whose DOS magic is invalid (all header
bytes zero) but whose leading bytes, reinterpreted as an
`IMAGE_DEBUG_DIRECTORY` (as `codeview_record70` does when the bias is 0),
carry `Type = IMAGE_DEBUG_TYPE_CODEVIEW` at offset 12 and
`AddressOfRawData = 0x100` at offset 20, with an "RSDS" CodeView record at
base + 0x100 (zero GUID, age 7, filename "x"). -/
def memC1 : Mem := memOf
  [(4108, 2), (4117, 1),
   (4352, 0x52), (4353, 0x53), (4354, 0x44), (4355, 0x53),
   (4372, 7), (4376, 120)]

/-- A module image at base 4096 with a valid DOS header
(`e_lfanew = 0x80`) whose NT signature check fails (zero bytes at
4096 + 0x80), yet whose leading bytes again form a CodeView-typed debug
directory (`Type = 2` at offset 12, `AddressOfRawData = 0x200` at offset
20) pointing at an "RSDS" record with age 9. -/
def memC5 : Mem := memOf
  [(4096, 0x4D), (4097, 0x5A), (4156, 0x80),
   (4108, 2), (4117, 2),
   (4608, 0x52), (4609, 0x53), (4610, 0x44), (4611, 0x53),
   (4628, 9)]

/-- `memC5` with a single byte changed: the debug directory's `Type` field
(the byte at 4096 + 12) is 3 instead of 2.  Both memories fail the NT
signature check identically; they differ only in a field below the
Extended Header. -/
def memC5x : Mem := fun a => if a = 4108 then 3 else memC5 a

/-- A module image at base 8192 with an invalid DOS magic whose leading
bytes form a CodeView-typed debug directory (`AddressOfRawData = 0x40`)
pointing at an "RSDS" record with GUID byte 0 equal to 0xAB and age 5. -/
def memC6 : Mem := memOf
  [(8204, 2), (8212, 0x40),
   (8256, 0x52), (8257, 0x53), (8258, 0x44), (8259, 0x53),
   (8260, 0xAB), (8276, 5)]

/-- An `IMAGE_SECTION_HEADER` at address 0 whose 8-byte `Name` field is
"abcdefgh" (no NUL inside the field); the bytes after the field are
"i" then NUL. -/
def memC7 : Mem := memOf
  [(0, 97), (1, 98), (2, 99), (3, 100), (4, 101), (5, 102), (6, 103), (7, 104),
   (8, 105)]

/-! ## Claim theorems -/

/-- Claim C1: the claim states that with an invalid DOS magic the
accessors `id`, `debug_id`, `debug_name` and `segments` all return absent.
This evaluation shows the code violating it: on `memC1` the DOS magic
check fails and `id` is `none` and `segments` is empty, yet `debug_id` and
`debug_name` return values, because `codeview_record70` falls back to bias
0 and reads the invalid header bytes as a debug directory. -/
theorem c1_invalid_dos_debug_id_present :
    readU16 memC1 4096 ≠ IMAGE_DOS_SIGNATURE ∧
    SharedLibrary.id memC1 4096 = none ∧
    SharedLibrary.segments memC1 4096 = [] ∧
    SharedLibrary.debug_id memC1 4096 = some (List.replicate 16 0, 7) ∧
    SharedLibrary.debug_name memC1 4096 8 = some [120] := by decide

/-- Claim C4: the claim states that when `GetModuleInformation` fails
(returns 0) the module is skipped without invoking the callback.  This
evaluation shows the code violating it: the guard
`!GetModuleInformation(..) == 0` tests `bnotI32 ret = 0`, which is false
for the failure value 0 (it holds only for -1), so the candidate with
`infoRet = 0` is pinned and its callback invoked. -/
theorem c4_info_failure_not_skipped :
    bnotI32 0 = -1 ∧
    each (fun _ => IterationControl.Continue) [⟨true, 0, true, true⟩] =
      ([Event.pin, Event.callback, Event.unpin], 1) := by decide

/-- Claim C5: the claim states that no field below the Extended Header is
read before the Extended Header's magic check passes, in particular that
the debug path never dereferences a Debug Directory Entry when the header
failed to validate.  This evaluation shows the code violating it: `memC5`
and `memC5x` both fail the NT signature check, and they differ only in the
debug directory's `Type` field (a byte below the Extended Header), yet
`debug_id` distinguishes them — so that field is read. -/
theorem c5_debug_entry_read_without_nt :
    SharedLibrary.nt_headers memC5 4096 = none ∧
    SharedLibrary.nt_headers memC5x 4096 = none ∧
    SharedLibrary.debug_id memC5 4096 = some (List.replicate 16 0, 9) ∧
    SharedLibrary.debug_id memC5x 4096 = none := by decide

/-- Claim C6: the claim states that `debug_id` returns a pair exactly when
the Extended Header validates, the bias is computed, the Debug Directory
Entry has the CodeView type, and the Debug Record magic matches.  This
evaluation shows the code violating the "only if" half of condition (a):
on `memC6` the Extended Header does not validate (the DOS magic already
fails), yet `debug_id` returns a pair. -/
theorem c6_debug_id_without_valid_nt :
    SharedLibrary.nt_headers memC6 8192 = none ∧
    SharedLibrary.debug_id memC6 8192 =
      some (0xAB :: List.replicate 15 0, 5) := by decide

/-- Claim C7: the claim states that a segment's decoded name is the 8-byte
on-disk `Name` field truncated at its first non-text or null byte.  This
evaluation shows the code violating it: on `memC7` the `Name` field is the
8 printable bytes "abcdefgh" with no NUL, and `CStr::from_ptr` keeps
reading past the field, so the decoded name is the 9 bytes "abcdefghi" —
not a truncation of the field. -/
theorem c7_name_reads_past_field :
    readBytes memC7 0 8 = [97, 98, 99, 100, 101, 102, 103, 104] ∧
    Segment.name memC7 0 40 = [97, 98, 99, 100, 101, 102, 103, 104, 105] ∧
    (Segment.name memC7 0 40).length = 9 := by decide

/-- One iteration on an eligible candidate: the callback is invoked, and
`should_break` is set exactly when the callback signalled `Break`. -/
theorem moduleStep_eligible (c : ModuleCand) (ctl : IterationControl) (h : eligible c) :
    moduleStep c ctl =
      ([Event.pin, Event.callback, Event.unpin], true,
        decide (ctl = IterationControl.Break)) := by
  obtain ⟨h1, h2, h3, h4⟩ := h
  simp [moduleStep, h1, h2, h3, h4]

/-- With every candidate eligible and a callback that always continues,
the invocation counter advances by exactly the number of candidates. -/
theorem eachGo_const_continue (mods : List ModuleCand)
    (hall : ∀ c ∈ mods, eligible c) (k0 : Nat) :
    (eachGo (fun _ => IterationControl.Continue) mods k0).2 = k0 + mods.length := by
  induction mods generalizing k0 with
  | nil => simp [eachGo]
  | cons c rest ih =>
    have hstep := moduleStep_eligible c IterationControl.Continue
      (hall c (List.mem_cons_self c rest))
    have hrest : ∀ c' ∈ rest, eligible c' := fun c' hc' => hall c' (List.mem_cons_of_mem c hc')
    simp only [eachGo, hstep]
    simp [ih hrest, Nat.add_comm, Nat.add_assoc, Nat.add_left_comm]

/-- With every candidate eligible and a callback that signals `Break` on
its `K`-th invocation (1-based), the counter stops at exactly `K`. -/
theorem eachGo_break_at (mods : List ModuleCand)
    (hall : ∀ c ∈ mods, eligible c) (K k0 : Nat)
    (h1 : k0 < K) (h2 : K ≤ k0 + mods.length) :
    (eachGo
      (fun i => if i + 1 = K then IterationControl.Break else IterationControl.Continue)
      mods k0).2 = K := by
  induction mods generalizing k0 with
  | nil => simp at h2; omega
  | cons c rest ih =>
    have hrest : ∀ c' ∈ rest, eligible c' := fun c' hc' => hall c' (List.mem_cons_of_mem c hc')
    by_cases hK : k0 + 1 = K
    · subst hK
      have hstep := moduleStep_eligible c IterationControl.Break
        (hall c (List.mem_cons_self c rest))
      simp only [eachGo]
      simp [hstep]
    · have hstep := moduleStep_eligible c IterationControl.Continue
        (hall c (List.mem_cons_self c rest))
      simp only [eachGo, if_neg hK, hstep]
      have := ih hrest (k0 + 1) (by omega) (by simp at h2 ⊢; omega)
      simpa using this

/-- Claim C2: for a module set in which every candidate is eligible, an
enumeration whose callback always returns `Continue` invokes the callback
once per candidate, and an enumeration whose callback returns `Break` on
its `k`-th invocation (`0 < k < N`) invokes the callback exactly `k` times
and visits no further modules. -/
theorem c2_each_counts (mods : List ModuleCand) (k : Nat)
    (hall : ∀ c ∈ mods, eligible c) (hk0 : 0 < k) (hkN : k < mods.length) :
    (each (fun _ => IterationControl.Continue) mods).2 = mods.length ∧
    (each
      (fun i => if i + 1 = k then IterationControl.Break else IterationControl.Continue)
      mods).2 = k := by
  constructor
  · simpa using eachGo_const_continue mods hall 0
  · exact eachGo_break_at mods hall k 0 hk0 (by omega)

/-- Three eligible candidates. -/
def mods3 : List ModuleCand :=
  [⟨true, 1, true, true⟩, ⟨true, 1, true, true⟩, ⟨true, 1, true, true⟩]

/-- Witness for C2 at three eligible candidates, breaking on the 2nd
invocation. -/
theorem c2_each_counts_witness :
    (each (fun _ => IterationControl.Continue) mods3).2 = mods3.length ∧
    (each
      (fun i => if i + 1 = 2 then IterationControl.Break else IterationControl.Continue)
      mods3).2 = 2 :=
  c2_each_counts mods3 2 (by decide) (by decide) (by decide)

/-- Claim C3: on every per-module iteration in which the pin (the
redundant `LoadLibraryExW`) has been taken, the pin is taken once and
released exactly once, as the final action of the iteration (hence before
the next module or the stop), on every exit path — the callback returning
`Continue` or `Break`, the commit-state query failing, or the region being
uncommitted are all instances of the quantified `ctl`, `vqOk`,
`committed`. -/
theorem c3_pin_released_once (c : ModuleCand) (ctl : IterationControl) (h : pinTaken c) :
    (moduleStep c ctl).1.count Event.pin = 1 ∧
    (moduleStep c ctl).1.count Event.unpin = 1 ∧
    ∃ mid, (moduleStep c ctl).1 = Event.pin :: (mid ++ [Event.unpin]) ∧
      mid.count Event.pin = 0 ∧ mid.count Event.unpin = 0 := by
  obtain ⟨h1, h2⟩ := h
  have hstep : (moduleStep c ctl).1 =
      Event.pin :: ((if c.vqOk && c.committed then [Event.callback] else []) ++ [Event.unpin]) := by
    simp [moduleStep, h1, h2]
  refine ⟨?_, ?_, (if c.vqOk && c.committed then [Event.callback] else []), hstep, ?_, ?_⟩
  · rw [hstep]; by_cases hi : c.vqOk && c.committed <;> simp [hi]
  · rw [hstep]; by_cases hi : c.vqOk && c.committed <;> simp [hi]
  · by_cases hi : c.vqOk && c.committed <;> simp [hi]
  · by_cases hi : c.vqOk && c.committed <;> simp [hi]

/-- Witness for C3 at a pinned, committed candidate whose callback breaks. -/
theorem c3_pin_released_once_witness :
    (moduleStep ⟨true, 1, true, true⟩ IterationControl.Break).1.count Event.pin = 1 ∧
    (moduleStep ⟨true, 1, true, true⟩ IterationControl.Break).1.count Event.unpin = 1 ∧
    ∃ mid, (moduleStep ⟨true, 1, true, true⟩ IterationControl.Break).1 =
        Event.pin :: (mid ++ [Event.unpin]) ∧
      mid.count Event.pin = 0 ∧ mid.count Event.unpin = 0 :=
  c3_pin_released_once ⟨true, 1, true, true⟩ IterationControl.Break (by decide)

/-- Claim C8: a candidate that reaches the memory query but whose region
is not committed has its callback not invoked, its pin released (the
iteration's events are exactly pin then unpin), no break signalled, and the
enumeration continues with the remaining candidates and an unchanged
invocation counter. -/
theorem c8_not_committed_skips (c : ModuleCand) (ctl : IterationControl)
    (cb : Nat → IterationControl) (rest : List ModuleCand) (k : Nat)
    (h1 : c.pathOk = true) (h2 : bnotI32 c.infoRet ≠ 0)
    (h3 : c.vqOk = true) (h4 : c.committed = false) :
    moduleStep c ctl = ([Event.pin, Event.unpin], false, false) ∧
    eachGo cb (c :: rest) k =
      ([Event.pin, Event.unpin] ++ (eachGo cb rest k).1, (eachGo cb rest k).2) := by
  have hstep : ∀ ctl', moduleStep c ctl' = ([Event.pin, Event.unpin], false, false) := by
    intro ctl'; simp [moduleStep, h1, h2, h3, h4]
  exact ⟨hstep ctl, by simp [eachGo, hstep]⟩

/-- Witness for C8 at a single uncommitted candidate. -/
theorem c8_not_committed_skips_witness :
    moduleStep ⟨true, 1, true, false⟩ IterationControl.Continue =
      ([Event.pin, Event.unpin], false, false) ∧
    eachGo (fun _ => IterationControl.Continue) [⟨true, 1, true, false⟩] 0 =
      ([Event.pin, Event.unpin] ++
        (eachGo (fun _ => IterationControl.Continue) [] 0).1,
       (eachGo (fun _ => IterationControl.Continue) [] 0).2) :=
  c8_not_committed_skips ⟨true, 1, true, false⟩ IterationControl.Continue
    (fun _ => IterationControl.Continue) [] 0 rfl (by decide) rfl rfl

/-- Claim C9: the Image Signature accessor `id` returns a value if and
only if the Primary and Extended Header magic checks both pass (the
Extended Header validates), and any returned pair is exactly the build
timestamp (NT offset 8) and image size (NT offset 80) read from the
validated Extended Header. -/
theorem c9_id_iff_nt_valid (m : Mem) (base : Int) :
    ((SharedLibrary.id m base).isSome ↔
      readU16 m base = IMAGE_DOS_SIGNATURE ∧
        readU32 m (ntAddr m base) = IMAGE_NT_SIGNATURE) ∧
    ∀ ts sz, SharedLibrary.id m base = some (ts, sz) →
      ts = readU32 m (ntAddr m base + 8) ∧ sz = readU32 m (ntAddr m base + 80) := by
  unfold SharedLibrary.id SharedLibrary.nt_headers SharedLibrary.dos_header
  by_cases h1 : readU16 m base = IMAGE_DOS_SIGNATURE <;>
    by_cases h2 : readU32 m (ntAddr m base) = IMAGE_NT_SIGNATURE <;>
      constructor <;> simp [h1, h2]

/-- Witness for C9 on `memGood`: `id` is present and its components are
the header fields. -/
theorem c9_id_iff_nt_valid_witness :
    (SharedLibrary.id memGood 0).isSome ∧
    (0x11223344 : Nat) = readU32 memGood (ntAddr memGood 0 + 8) ∧
    (0xA000 : Nat) = readU32 memGood (ntAddr memGood 0 + 80) :=
  ⟨(c9_id_iff_nt_valid memGood 0).1.mpr ⟨by decide, by decide⟩,
   (c9_id_iff_nt_valid memGood 0).2 0x11223344 0xA000 (by decide)⟩

/-- Claim C10: `virtual_memory_bias` is a total function (it always
returns a bias, never an absent value): when either header magic check
fails it returns exactly 0, and otherwise it returns the debug
data-directory entry's virtual address (NT offset 184) as a nonnegative
signed offset. -/
theorem c10_bias_total (m : Mem) (base : Int) :
    (¬(readU16 m base = IMAGE_DOS_SIGNATURE ∧
        readU32 m (ntAddr m base) = IMAGE_NT_SIGNATURE) →
      SharedLibrary.virtual_memory_bias m base = 0) ∧
    ((readU16 m base = IMAGE_DOS_SIGNATURE ∧
        readU32 m (ntAddr m base) = IMAGE_NT_SIGNATURE) →
      SharedLibrary.virtual_memory_bias m base =
          (readU32 m (ntAddr m base + 184) : Int) ∧
        0 ≤ SharedLibrary.virtual_memory_bias m base) := by
  unfold SharedLibrary.virtual_memory_bias SharedLibrary.nt_headers SharedLibrary.dos_header
  by_cases h1 : readU16 m base = IMAGE_DOS_SIGNATURE <;>
    by_cases h2 : readU32 m (ntAddr m base) = IMAGE_NT_SIGNATURE <;>
      simp [h1, h2]

/-- Witness for C10: bias 0 on the all-zero memory (failed magic), and the
debug directory's virtual address 0x2000 on `memGood`. -/
theorem c10_bias_total_witness :
    SharedLibrary.virtual_memory_bias memBad 0 = 0 ∧
    SharedLibrary.virtual_memory_bias memGood 0 = 0x2000 :=
  ⟨(c10_bias_total memBad 0).1 (by decide),
   ((c10_bias_total memGood 0).2 ⟨by decide, by decide⟩).1.trans (by decide)⟩
